import Mathlib

/-!
Verification development for the llm-key-vault repository.

Strings from the TypeScript/Swift sources are modelled as `List Char`, byte
buffers as `List Nat` (each entry `< 256` where it matters).  Platform
primitives that are not part of the repository (AES-256-GCM from Node's
`crypto` module, `JSON.parse`, the Supabase client, the network) are modelled
as explicit function parameters or as explicit outcome values, so every
repository-level code path is embedded directly from the source.
-/

namespace LLMKV

instance {ε α : Type} [DecidableEq ε] [DecidableEq α] : DecidableEq (Except ε α)
  | .error e, .error f =>
    if h : e = f then .isTrue (by rw [h]) else .isFalse (fun c => h (by injection c))
  | .error _, .ok _ => .isFalse (fun c => Except.noConfusion c)
  | .ok _, .error _ => .isFalse (fun c => Except.noConfusion c)
  | .ok a, .ok b =>
    if h : a = b then .isTrue (by rw [h]) else .isFalse (fun c => h (by injection c))

/-! ### JS `String.prototype.split` on a single-character separator

`"a:b".split(":") = ["a","b"]`, `"".split(":") = [""]`, `":".split(":") = ["",""]`. -/

def splitCh (sep : Char) : List Char → List (List Char)
  | [] => [[]]
  | c :: rest =>
    match splitCh sep rest with
    | [] => [[c]]
    | g :: gs => if c = sep then [] :: g :: gs else (c :: g) :: gs

/-! ### Base64 (the encoding used by Node's `Buffer`)

`sextets` turns a byte sequence into 6-bit groups, `unsextets` reassembles
bytes from 6-bit groups (a lone trailing sextet carries no complete byte and
is dropped, as in Node's forgiving decoder). -/

def sextets : List Nat → List Nat
  | b0 :: b1 :: b2 :: rest =>
    b0 / 4 :: ((b0 % 4) * 16 + b1 / 16) :: ((b1 % 16) * 4 + b2 / 64) :: b2 % 64 :: sextets rest
  | [b0, b1] => [b0 / 4, (b0 % 4) * 16 + b1 / 16, (b1 % 16) * 4]
  | [b0] => [b0 / 4, (b0 % 4) * 16]
  | [] => []

def unsextets : List Nat → List Nat
  | s0 :: s1 :: s2 :: s3 :: rest =>
    (s0 * 4 + s1 / 16) :: ((s1 % 16) * 16 + s2 / 4) :: ((s2 % 4) * 64 + s3) :: unsextets rest
  | [s0, s1, s2] => [s0 * 4 + s1 / 16, (s1 % 16) * 16 + s2 / 4]
  | [s0, s1] => [s0 * 4 + s1 / 16]
  | [_] => []
  | [] => []

def b64Alphabet : List Char :=
  "ABCDEFGHIJKLMNOPQRSTUVWXYZabcdefghijklmnopqrstuvwxyz0123456789+/".toList

def b64Char (n : Nat) : Char := b64Alphabet.getD n 'A'

def isB64Char (c : Char) : Bool := b64Alphabet.contains c

/-- `Buffer.prototype.toString("base64")`: 6-bit groups mapped through the
base64 alphabet, plus `=` padding to a multiple of four characters. -/
def encodeB64 (bs : List Nat) : List Char :=
  (sextets bs).map b64Char ++
    (if bs.length % 3 = 1 then ['=', '='] else if bs.length % 3 = 2 then ['='] else [])

/-- `Buffer.from(s, "base64")`: ignore non-alphabet characters (including the
padding), then reassemble bytes from the 6-bit groups. -/
def decodeB64 (cs : List Char) : List Nat :=
  unsextets ((cs.filter isB64Char).map (fun c => b64Alphabet.indexOf c))

/-! ### The secret envelope (web `lib/crypto.ts`)

AES-256-GCM itself is Node's `crypto` library, not repository code; it is
modelled by a pair of abstract byte-level functions `enc`/`dec` (the 256-bit
key already applied).  `enc iv p` returns `(ciphertext, tag)` for the 12-byte
random nonce `iv`; `dec iv tag ct` returns the plaintext or the thrown error
message.  Envelope assembly, base64 transport, `split(":")` and the version
and presence checks are translated from the source. -/

def vOne : List Char := ['v', '1']

def invalidEnvelopeMsg : List Char := "Invalid secret envelope format".toList

/-- `[ENVELOPE_PREFIX, iv.toString("base64"), tag.toString("base64"),
ciphertext.toString("base64")].join(":")` -/
def assembleEnvelope (iv tag ct : List Nat) : List Char :=
  vOne ++ ':' :: (encodeB64 iv ++ ':' :: (encodeB64 tag ++ ':' :: encodeB64 ct))

def encryptSecret (enc : List Nat → List Nat → List Nat × List Nat)
    (iv plaintext : List Nat) : List Char :=
  assembleEnvelope iv (enc iv plaintext).2 (enc iv plaintext).1

/-- `decryptSecret`: split on `":"`, destructure the first four fields
(`undefined`/missing and `""` both fail the `!field` check, modelled by the
`[]` default), check the version, then base64-decode and hand to the cipher. -/
def decryptSecret (dec : List Nat → List Nat → List Nat → Except (List Char) (List Nat))
    (envelope : List Char) : Except (List Char) (List Nat) :=
  let fields := splitCh ':' envelope
  let pre := fields.getD 0 []
  let ivB64 := fields.getD 1 []
  let tagB64 := fields.getD 2 []
  let ctB64 := fields.getD 3 []
  if pre ≠ vOne ∨ ivB64 = [] ∨ tagB64 = [] ∨ ctB64 = [] then
    .error invalidEnvelopeMsg
  else
    dec (decodeB64 ivB64) (decodeB64 tagB64) (decodeB64 ctB64)

/-- A concrete instantiation of the cipher parameters, used to evaluate the
envelope layer on closed inputs.  Like AES-256-GCM it is length-preserving
(`ciphertext.length = plaintext.length`, so the empty plaintext yields an
empty ciphertext) and has a fixed 16-byte tag per `(iv, ciphertext)` pair. -/
def zeros16 : List Nat := List.replicate 16 0

def encToy (_iv p : List Nat) : List Nat × List Nat := (p, zeros16)

def decToy (_iv tag ct : List Nat) : Except (List Char) (List Nat) :=
  if tag = zeros16 then .ok ct
  else .error ("Unsupported state or unable to authenticate data".toList)

/-! ### Context management (web `lib/context.ts`) -/

inductive Role where
  | system
  | user
  | assistant
deriving DecidableEq, Repr

/-- `MessageForContext`; the optional `images?: string[]` field is modelled
with `[]` for "absent" (the source only ever tests `images && images.length > 0`). -/
structure MessageForContext where
  role : Role
  content : List Char
  images : List (List Char)
deriving DecidableEq, Repr

/-- `estimateTokens`: `if (!text) return 0; return Math.ceil(text.length / 4)`. -/
def estimateTokens (text : List Char) : Nat :=
  if text = [] then 0 else (text.length + 3) / 4

/-- `estimateMessageTokens`: text tokens plus 200 per image. -/
def estimateMessageTokens (m : MessageForContext) : Nat :=
  estimateTokens m.content + (if 0 < m.images.length then m.images.length * 200 else 0)

/-- `estimateTotalTokens`: `messages.reduce((sum, msg) => sum + estimateMessageTokens(msg), 0)`. -/
def estimateTotalTokens (messages : List MessageForContext) : Nat :=
  messages.foldl (fun sum m => sum + estimateMessageTokens m) 0

/-- `MODEL_LIMITS`: `"gpt-5.2-2025-12-11": 200000 - 32000`, `default: 168000`. -/
def getContextLimit (model : List Char) : Nat :=
  if model = "gpt-5.2-2025-12-11".toList then 200000 - 32000 else 168000

/-- `getSummarizationThreshold`: `Math.floor(getContextLimit(model) * 0.8)`;
for the limit 168000 the JS float computation yields exactly 134400, which
`limit * 4 / 5` reproduces in `Nat`. -/
def getSummarizationThreshold (model : List Char) : Nat :=
  getContextLimit model * 4 / 5

/-- `needsSummarization`: `totalTokens >= threshold`. -/
def needsSummarization (messages : List MessageForContext) (model : List Char) : Bool :=
  getSummarizationThreshold model ≤ estimateTotalTokens messages

/-- JS `xs.slice(-n)` for a `Nat` argument `n` (as `-keepLastN` in the source):
for `n = 0` the index is `-0`, which JS treats as `0`, so the whole list is
returned; otherwise the last `n` elements (all of them when `n ≥ length`). -/
def jsSliceFromNeg {α : Type} (xs : List α) (n : Nat) : List α :=
  if n = 0 then xs else xs.drop (xs.length - n)

/-- JS `xs.slice(0, -n)`: for `n = 0` the end index `-0` is `0`, giving `[]`;
otherwise everything before the last `n` elements. -/
def jsSliceToNegEnd {α : Type} (xs : List α) (n : Nat) : List α :=
  if n = 0 then [] else xs.take (xs.length - n)

/-- `splitForSummarization(messages, keepLastN = 3)`. -/
def splitForSummarization (messages : List MessageForContext) (keepLastN : Nat) :
    List MessageForContext × List MessageForContext :=
  if messages.length ≤ keepLastN then ([], messages)
  else (jsSliceToNegEnd messages keepLastN, jsSliceFromNeg messages keepLastN)

/-- The content of the synthetic system message built in `buildMessagesWithSummary`. -/
def summaryMessageContent (summary : List Char) : List Char :=
  "[이전 대화 요약]\n".toList ++ summary ++
    "\n\n위 내용은 이전 대화의 요약입니다. 이 맥락을 참고하여 대화를 이어가세요.".toList

/-- `buildMessagesWithSummary`: `[summaryMessage, ...recentMessages]`. -/
def buildMessagesWithSummary (summary : List Char) (recentMessages : List MessageForContext) :
    List MessageForContext :=
  ⟨Role.system, summaryMessageContent summary, []⟩ :: recentMessages

/-! ### The API-key display hint (web `app/api/api-keys/route.ts`) -/

/-- The whitespace characters removed by JS `String.prototype.trim`. -/
def jsWhitespace : List Char :=
  [' ', '\t', '\n', '\r', Char.ofNat 11, Char.ofNat 12, Char.ofNat 0xa0,
   Char.ofNat 0x2028, Char.ofNat 0x2029, Char.ofNat 0xfeff]

def isJsWhitespace (c : Char) : Bool := jsWhitespace.contains c

def jsTrim (s : List Char) : List Char :=
  ((s.dropWhile isJsWhitespace).reverse.dropWhile isJsWhitespace).reverse

def maskMarker : List Char := "****".toList

/-- `keyHint`: trim, then `"****"` when at most 4 characters remain, else
`"****"` plus the last 4 characters (`trimmed.slice(-4)`). -/
def keyHint (apiKey : List Char) : List Char :=
  let trimmed := jsTrim apiKey
  if trimmed.length ≤ 4 then maskMarker
  else maskMarker ++ trimmed.drop (trimmed.length - 4)

/-- The upsert handler trims the submitted key before encrypting it and
computing its hint, so the stored plaintext is `jsTrim apiKey`. -/
def upsertStoredPlaintext (apiKey : List Char) : List Char := jsTrim apiKey

def upsertHint (apiKey : List Char) : List Char := keyHint (jsTrim apiKey)

/-! ### The compare endpoint (web `app/api/compare/route.ts`)

`sendChat` performs network I/O; its outcome for a given target is modelled
by an abstract function `dispatch : CompareTargetW → Except message response`
(the shared prompt/temperature/maxTokens are already applied).  The handler
maps each target to a job that catches its own failure, and `Promise.all`
preserves the order of the job array. -/

inductive WProvider where
  | openai
  | anthropic
deriving DecidableEq, Repr

structure WUsage where
  inputTokens : Option Nat
  outputTokens : Option Nat
  reasoningTokens : Option Nat
  totalTokens : Option Nat
deriving DecidableEq, Repr

structure WChatResponse where
  text : List Char
  thinking : Option (List Char)
  usage : Option WUsage
deriving DecidableEq, Repr

structure CompareTargetW where
  provider : WProvider
  model : List Char
deriving DecidableEq, Repr

/-- `{ ok: true, result }` / `{ ok: false, error }`. -/
inductive CompareOutcomeW where
  | ok (result : WChatResponse)
  | err (error : List Char)
deriving DecidableEq, Repr

structure CompareResultW where
  provider : WProvider
  model : List Char
  outcome : CompareOutcomeW
deriving DecidableEq, Repr

def comparePOST (dispatch : CompareTargetW → Except (List Char) WChatResponse)
    (targets : List CompareTargetW) : List CompareResultW :=
  targets.map fun t =>
    match dispatch t with
    | .ok resp => ⟨t.provider, t.model, .ok resp⟩
    | .error msg => ⟨t.provider, t.model, .err msg⟩

/-! ### The Swift gateway (`LLMClient.send`) and the web credential loader
(`lib/llm.ts`, `loadUserApiKey`)

`LLMClient.send` looks up the adapter, then wraps the secret-store load in a
`do/catch` that maps every thrown error to `.missingAPIKey(provider:)`.
The adapter call and the secret store are abstract function parameters. -/

inductive ProviderID where
  | openai
  | anthropic
  | gemini
  | openrouter
  | ollama
  | custom
deriving DecidableEq, Repr

structure SecretKeyRef where
  provider : ProviderID
  name : List Char
deriving DecidableEq, Repr

inductive LLMKeyVaultError where
  | missingAdapter (provider : ProviderID)
  | missingAPIKey (provider : ProviderID)
  | invalidURL (raw : List Char)
  | httpError (status : Nat) (message : List Char)
  | decodingError (message : List Char)
  | keychainError (code : Int)
deriving DecidableEq, Repr

structure ChatRequestSw where
  provider : ProviderID
  model : List Char
  messages : List (Role × List Char)
deriving DecidableEq, Repr

structure ChatResponseSw where
  text : List Char
  usage : Option (Option Nat × Option Nat × Option Nat)
deriving DecidableEq, Repr

def clientSend {ε : Type}
    (adapters : ProviderID → Option (ChatRequestSw → List Char → Except LLMKeyVaultError ChatResponseSw))
    (loadSecret : SecretKeyRef → Except ε (List Char))
    (request : ChatRequestSw) (keyName : List Char) :
    Except LLMKeyVaultError ChatResponseSw :=
  match adapters request.provider with
  | none => .error (.missingAdapter request.provider)
  | some adapter =>
    match loadSecret ⟨request.provider, keyName⟩ with
    | .error _ => .error (.missingAPIKey request.provider)
    | .ok apiKey => adapter request apiKey

/-- `"API key not set for provider"`, thrown when the row is absent or has no
`encrypted_key`. -/
def apiKeyNotSetMsg : List Char := "API key not set for provider".toList

/-- `loadUserApiKey`: the Supabase `.maybeSingle()` outcome is modelled as
`Except message (Option envelope)` — a query error re-throws its message, an
absent row (or null `encrypted_key`) throws `apiKeyNotSetMsg`, and otherwise
the stored envelope goes to `decryptSecret`, whose thrown message propagates. -/
def loadUserApiKey (dec : List Nat → List Nat → List Nat → Except (List Char) (List Nat))
    (queryResult : Except (List Char) (Option (List Char))) :
    Except (List Char) (List Nat) :=
  match queryResult with
  | .error m => .error m
  | .ok none => .error apiKeyNotSetMsg
  | .ok (some envelope) => decryptSecret dec envelope

/-! ### The OpenAI Responses streaming translator (web `lib/llm.ts`,
`callOpenAIResponsesStream`) and its SSE loop

The upstream body is a byte stream read chunk-by-chunk; a run of the loop is
modelled by the list of chunks delivered before the read either ends (`eof`)
or throws (`err message`).  `JSON.parse` plus the `event.type` dispatch is
the platform/`fetch` side and is modelled by an abstract
`parse : data-line → Option ResponsesApiEvent` (`none` = invalid JSON,
skipped by the `catch {}` around the parse). -/

structure UsageAcc where
  inputTokens : Nat
  outputTokens : Nat
  reasoningTokens : Nat
deriving DecidableEq, Repr

inductive StreamEvent where
  | text (delta : List Char)
  | thinking (delta : List Char)
  | usage (u : UsageAcc)
  | error (message : List Char)
  | done
deriving DecidableEq, Repr

inductive ResponsesApiEvent where
  | outputTextDelta (delta : List Char)
  | reasoningSummaryTextDelta (delta : List Char)
  | completed (usage : Option UsageAcc)
  | otherEvent
deriving DecidableEq, Repr

/-- `normalizeSseLine`: strip one trailing `"\r"`. -/
def normalizeSseLine (line : List Char) : List Char :=
  if line.getLast? = some '\r' then line.dropLast else line

def dataMarker : List Char := "data: ".toList

def doneMarker : List Char := "[DONE]".toList

/-- One iteration of `for (const line of lines)`: returns the updated usage
accumulator and the internal events enqueued for this line. -/
def processSseLine (parse : List Char → Option ResponsesApiEvent)
    (st : UsageAcc) (line : List Char) : UsageAcc × List StreamEvent :=
  let n := normalizeSseLine line
  if n.take 6 = dataMarker then
    let data := n.drop 6
    if data = doneMarker then (st, [])
    else
      match parse data with
      | some (.outputTextDelta d) => (st, [.text d])
      | some (.reasoningSummaryTextDelta d) => (st, [.thinking d])
      | some (.completed (some u)) => (u, [])
      | some (.completed none) => (st, [])
      | some .otherEvent => (st, [])
      | none => (st, [])
  else (st, [])

/-- One iteration of `while (true)` for one delivered chunk:
`buffer += chunk; lines = buffer.split("\n"); buffer = lines.pop() || ""`,
then process every complete line. -/
def processSseChunk (parse : List Char → Option ResponsesApiEvent)
    (buffer : List Char) (st : UsageAcc) (chunk : List Char) :
    List Char × UsageAcc × List StreamEvent :=
  let lines := splitCh '\n' (buffer ++ chunk)
  let newBuffer := lines.getLast?.getD []
  let complete := lines.dropLast
  let step := complete.foldl
    (fun (acc : UsageAcc × List StreamEvent) l =>
      let r := processSseLine parse acc.1 l
      (r.1, acc.2 ++ r.2)) (st, [])
  (newBuffer, step.1, step.2)

inductive UpstreamEnd where
  | eof
  | err (message : List Char)
deriving DecidableEq, Repr

def runSseLoop (parse : List Char → Option ResponsesApiEvent) :
    List Char → UsageAcc → List (List Char) → UsageAcc × List StreamEvent
  | _buffer, st, [] => (st, [])
  | buffer, st, chunk :: rest =>
    let r := processSseChunk parse buffer st chunk
    let tail := runSseLoop parse r.1 r.2.1 rest
    (tail.1, r.2.2 ++ tail.2)

/-- The whole translator body: run the read loop over the delivered chunks,
then `usage` + `[DONE]` on a clean end, or `error` + `usage` + `[DONE]` from
the `catch` block when the read throws. -/
def translateResponsesStream (parse : List Char → Option ResponsesApiEvent)
    (chunks : List (List Char)) (ending : UpstreamEnd) : List StreamEvent :=
  let r := runSseLoop parse [] ⟨0, 0, 0⟩ chunks
  match ending with
  | .eof => r.2 ++ [.usage r.1, .done]
  | .err msg => r.2 ++ [.error msg, .usage r.1, .done]

/-- Events that the translator's per-line dispatch can emit. -/
def IsDeltaEvent (e : StreamEvent) : Prop :=
  (∃ d, e = StreamEvent.text d) ∨ (∃ d, e = StreamEvent.thinking d)

/-! ### The chat route's summarization step (the try/catch around
`loadUserApiKey` + `splitForSummarization` + `summarizeMessages`)

`loadKey` models the awaited `loadUserApiKey(user.id)` outcome and
`summarize` the awaited `summarizeMessages(apiKey, toSummarize)` outcome
(which throws when the upstream summarization call is not ok).  Any `.error`
is absorbed by the `catch {}` and the original message list is kept. -/

def chatMessagesAfterCompression
    (messages : List MessageForContext) (model : List Char)
    (loadKey : Except (List Char) (List Char))
    (summarize : List Char → List MessageForContext → Except (List Char) (List Char)) :
    List MessageForContext :=
  if needsSummarization messages model then
    match loadKey with
    | .error _ => messages
    | .ok apiKey =>
      let split := splitForSummarization messages 3
      if 0 < split.1.length then
        match summarize apiKey split.1 with
        | .error _ => messages
        | .ok summary => buildMessagesWithSummary summary split.2
      else messages
  else messages

def cTargets : List CompareTargetW :=
  [⟨WProvider.openai, "gpt-5.2-2025-12-11".toList⟩,
   ⟨WProvider.anthropic, "claude-sonnet-4".toList⟩]

def dispatchW : CompareTargetW → Except (List Char) WChatResponse :=
  fun t =>
    match t.provider with
    | .openai => .ok ⟨"hello".toList, none, none⟩
    | .anthropic => .error ("Anthropic request failed (401)".toList)

/-- A concrete instantiation of the abstract JSON-line classifier, for
evaluating the translator on closed inputs. -/
def parseCex : List Char → Option ResponsesApiEvent :=
  fun data =>
    if data = "E1".toList then some (.outputTextDelta ("hi".toList)) else none

def adaptersW : ProviderID → Option (ChatRequestSw → List Char → Except LLMKeyVaultError ChatResponseSw) :=
  fun p =>
    match p with
    | .openai => some (fun _ _ => .ok ⟨"ok".toList, none⟩)
    | _ => none

def loadSecretFailW : SecretKeyRef → Except (List Char) (List Char) :=
  fun _ => .error ("keychain".toList)

def reqW : ChatRequestSw := ⟨.openai, "gpt-5.2-2025-12-11".toList, [(Role.user, "hi".toList)]⟩

def mA : MessageForContext := ⟨Role.user, "hi".toList, []⟩

def wImgMsg : MessageForContext := ⟨Role.user, [], List.replicate 168 ("u".toList)⟩

def wMsgs : List MessageForContext := List.replicate 4 wImgMsg

def summarizeFailW : List Char → List MessageForContext → Except (List Char) (List Char) :=
  fun _ _ => .error ("Summarization failed".toList)

/-- Swift `LLMClient.compare`: one task is added per input target, each task
computing `(t.provider, t.model, Result(send(req)))` with the `send` outcome
per target abstracted by `dispatch`; `for await r in group` then appends the
task results in COMPLETION order, modelled by `schedule`, a permutation of
the task indices `0, ..., targets.length - 1` chosen by the scheduler. -/
def compareSw
    (dispatch : ProviderID → List Char → Except LLMKeyVaultError ChatResponseSw)
    (targets : List (ProviderID × List Char)) (schedule : List Nat) :
    List (ProviderID × List Char × Except LLMKeyVaultError ChatResponseSw) :=
  schedule.filterMap fun i =>
    (targets[i]?).map fun t => (t.1, t.2, dispatch t.1 t.2)

def cTargetsSw : List (ProviderID × List Char) :=
  [(ProviderID.openai, "gpt-5.2-2025-12-11".toList),
   (ProviderID.anthropic, "claude-sonnet-4".toList)]

def dispatchSwCex : ProviderID → List Char → Except LLMKeyVaultError ChatResponseSw :=
  fun _ _ => .ok ⟨"ok".toList, none⟩

/-! ## Lemmas and claim theorems -/

theorem splitCh_ne_nil (sep : Char) : ∀ (s : List Char), splitCh sep s ≠ []
  | [] => by simp [splitCh]
  | c :: rest => by
    have h := splitCh_ne_nil sep rest
    cases hr : splitCh sep rest with
    | nil => exact absurd hr h
    | cons g gs =>
      simp only [splitCh, hr]
      split <;> simp

theorem splitCh_no_sep (sep : Char) : ∀ (s : List Char), sep ∉ s → splitCh sep s = [s]
  | [], _ => rfl
  | c :: rest, h => by
    have hc : ¬ c = sep := fun e => h (by simp [e])
    have hr : splitCh sep rest = [rest] :=
      splitCh_no_sep sep rest (fun hm => h (by simp [hm]))
    simp [splitCh, hr, hc]

theorem splitCh_append_sep (sep : Char) :
    ∀ (xs ys : List Char), sep ∉ xs → splitCh sep (xs ++ sep :: ys) = xs :: splitCh sep ys
  | [], ys, _ => by
    cases hr : splitCh sep ys with
    | nil => exact absurd hr (splitCh_ne_nil sep ys)
    | cons g gs => simp [splitCh, hr]
  | x :: xs, ys, h => by
    have hx : ¬ x = sep := fun e => h (by simp [e])
    have hr := splitCh_append_sep sep xs ys (fun hm => h (by simp [hm]))
    cases hq : splitCh sep (xs ++ sep :: ys) with
    | nil => exact absurd hq (splitCh_ne_nil sep _)
    | cons g gs =>
      rw [hq] at hr
      obtain ⟨rfl, rfl⟩ : xs = g ∧ splitCh sep ys = gs := by
        have := hr
        injection this with h1 h2
        exact ⟨h1.symm, h2.symm⟩
      simp [splitCh, hq, hx]

theorem unsextets_sextets : ∀ (bs : List Nat), (∀ b ∈ bs, b < 256) →
    unsextets (sextets bs) = bs
  | [], _ => rfl
  | [b0], h => by
    have h0 : b0 < 256 := h b0 (by simp)
    simp only [sextets, unsextets, List.cons.injEq, and_true]
    omega
  | [b0, b1], h => by
    have h0 : b0 < 256 := h b0 (by simp)
    have h1 : b1 < 256 := h b1 (by simp)
    simp only [sextets, unsextets, List.cons.injEq, and_true]
    omega
  | b0 :: b1 :: b2 :: rest, h => by
    have h0 : b0 < 256 := h b0 (by simp)
    have h1 : b1 < 256 := h b1 (by simp)
    have h2 : b2 < 256 := h b2 (by simp)
    have ih := unsextets_sextets rest (fun b hb => h b (by simp [hb]))
    simp only [sextets, unsextets, List.cons.injEq, ih, and_true]
    omega

theorem sextets_lt : ∀ (bs : List Nat), (∀ b ∈ bs, b < 256) →
    ∀ s ∈ sextets bs, s < 64
  | [], _ => by simp [sextets]
  | [b0], h => by
    have h0 : b0 < 256 := h b0 (by simp)
    simp only [sextets, List.mem_cons, List.mem_singleton, List.not_mem_nil]
    intro s hs
    rcases hs with rfl | rfl | hf
    · omega
    · omega
    · cases hf
  | [b0, b1], h => by
    have h0 : b0 < 256 := h b0 (by simp)
    have h1 : b1 < 256 := h b1 (by simp)
    simp only [sextets, List.mem_cons, List.not_mem_nil]
    intro s hs
    rcases hs with rfl | rfl | rfl | hf
    · omega
    · omega
    · omega
    · cases hf
  | b0 :: b1 :: b2 :: rest, h => by
    have h0 : b0 < 256 := h b0 (by simp)
    have h1 : b1 < 256 := h b1 (by simp)
    have h2 : b2 < 256 := h b2 (by simp)
    have ih := sextets_lt rest (fun b hb => h b (by simp [hb]))
    simp only [sextets, List.mem_cons]
    intro s hs
    rcases hs with rfl | rfl | rfl | rfl | hm
    · omega
    · omega
    · omega
    · omega
    · exact ih s hm

theorem b64_indexOf_b64Char : ∀ s, s < 64 → b64Alphabet.indexOf (b64Char s) = s := by
  decide

theorem isB64Char_b64Char : ∀ s, s < 64 → isB64Char (b64Char s) = true := by
  decide

theorem b64Char_ne_colon : ∀ s, s < 64 → b64Char s ≠ ':' := by
  decide

theorem map_indexOf_b64Char :
    ∀ (ss : List Nat), (∀ s ∈ ss, s < 64) →
      ss.map (fun s => b64Alphabet.indexOf (b64Char s)) = ss
  | [], _ => rfl
  | a :: t, h => by
    have ha := b64_indexOf_b64Char a (h a (by simp))
    have ih := map_indexOf_b64Char t (fun s hs => h s (by simp [hs]))
    simp only [List.map_cons, ha, ih]

theorem decodeB64_encodeB64 (bs : List Nat) (h : ∀ b ∈ bs, b < 256) :
    decodeB64 (encodeB64 bs) = bs := by
  unfold decodeB64 encodeB64
  rw [List.filter_append]
  have hfilter_pad : (if bs.length % 3 = 1 then ['=', '=']
      else if bs.length % 3 = 2 then ['='] else []).filter isB64Char = [] := by
    split
    · decide
    · split
      · decide
      · rfl
  rw [hfilter_pad, List.append_nil]
  have hfilter : ((sextets bs).map b64Char).filter isB64Char = (sextets bs).map b64Char := by
    rw [List.filter_eq_self]
    intro c hc
    obtain ⟨s, hs, rfl⟩ := List.mem_map.mp hc
    exact isB64Char_b64Char s (sextets_lt bs h s hs)
  rw [hfilter, List.map_map]
  have hmap : (sextets bs).map (b64Alphabet.indexOf ∘ b64Char) = sextets bs := by
    have := map_indexOf_b64Char (sextets bs) (sextets_lt bs h)
    simpa [Function.comp] using this
  rw [hmap]
  exact unsextets_sextets bs h

theorem encodeB64_no_colon (bs : List Nat) (h : ∀ b ∈ bs, b < 256) :
    ':' ∉ encodeB64 bs := by
  unfold encodeB64
  intro hc
  rcases List.mem_append.mp hc with hm | hm
  · obtain ⟨s, hs, he⟩ := List.mem_map.mp hm
    exact b64Char_ne_colon s (sextets_lt bs h s hs) he
  · split at hm <;> simp_all

theorem sextets_eq_nil : ∀ (bs : List Nat), sextets bs = [] ↔ bs = []
  | [] => by simp [sextets]
  | [_] => by simp [sextets]
  | [_, _] => by simp [sextets]
  | _ :: _ :: _ :: _ => by simp [sextets]

theorem encodeB64_eq_nil (bs : List Nat) : encodeB64 bs = [] ↔ bs = [] := by
  unfold encodeB64
  constructor
  · intro h
    rcases List.append_eq_nil.mp h with ⟨h1, _⟩
    exact (sextets_eq_nil bs).mp (List.map_eq_nil_iff.mp h1)
  · rintro rfl
    rfl

theorem colon_not_mem_vOne : ':' ∉ vOne := by decide

theorem splitCh_assembleEnvelope (iv tag ct : List Nat)
    (hiv : ∀ b ∈ iv, b < 256) (htag : ∀ b ∈ tag, b < 256) (hct : ∀ b ∈ ct, b < 256) :
    splitCh ':' (assembleEnvelope iv tag ct)
      = [vOne, encodeB64 iv, encodeB64 tag, encodeB64 ct] := by
  unfold assembleEnvelope
  rw [splitCh_append_sep ':' vOne _ colon_not_mem_vOne,
      splitCh_append_sep ':' _ _ (encodeB64_no_colon iv hiv),
      splitCh_append_sep ':' _ _ (encodeB64_no_colon tag htag),
      splitCh_no_sep ':' _ (encodeB64_no_colon ct hct)]

theorem decryptSecret_assembleEnvelope (dec) (iv tag ct : List Nat)
    (hiv : ∀ b ∈ iv, b < 256) (htag : ∀ b ∈ tag, b < 256) (hct : ∀ b ∈ ct, b < 256)
    (hivN : iv ≠ []) (htagN : tag ≠ []) (hctN : ct ≠ []) :
    decryptSecret dec (assembleEnvelope iv tag ct) = dec iv tag ct := by
  unfold decryptSecret
  rw [splitCh_assembleEnvelope iv tag ct hiv htag hct]
  have hivE : encodeB64 iv ≠ [] := fun e => hivN ((encodeB64_eq_nil iv).mp e)
  have htagE : encodeB64 tag ≠ [] := fun e => htagN ((encodeB64_eq_nil tag).mp e)
  have hctE : encodeB64 ct ≠ [] := fun e => hctN ((encodeB64_eq_nil ct).mp e)
  simp only [List.getD_cons_succ, List.getD_cons_zero]
  rw [if_neg (by simp [hivE, htagE, hctE]), decodeB64_encodeB64 iv hiv,
      decodeB64_encodeB64 tag htag, decodeB64_encodeB64 ct hct]

theorem decToy_spec (iv tag ct q : List Nat) :
    decToy iv tag ct = .ok q ↔ encToy iv q = (ct, tag) := by
  unfold decToy encToy
  by_cases htag : tag = zeros16
  · subst htag
    simp [eq_comm]
  · rw [if_neg htag]
    constructor
    · intro h
      exact Except.noConfusion h
    · intro h
      injection h with _ h2
      exact (htag h2.symm).elim

theorem processSseLine_delta (parse) (st : UsageAcc) (line : List Char) :
    ∀ e ∈ (processSseLine parse st line).2, IsDeltaEvent e := by
  intro e he
  unfold processSseLine at he
  dsimp only at he
  split at he
  · split at he
    · simp at he
    · split at he <;> simp_all [IsDeltaEvent]
  · simp at he

theorem processFoldl_delta (parse) :
    ∀ (lines : List (List Char)) (st : UsageAcc) (acc : List StreamEvent),
      (∀ e ∈ acc, IsDeltaEvent e) →
      ∀ e ∈ (lines.foldl
        (fun (acc : UsageAcc × List StreamEvent) l =>
          let r := processSseLine parse acc.1 l
          (r.1, acc.2 ++ r.2)) (st, acc)).2, IsDeltaEvent e
  | [], _, _, hacc => hacc
  | l :: rest, st, acc, hacc => by
    have hline := processSseLine_delta parse st l
    have hnext : ∀ e ∈ acc ++ (processSseLine parse st l).2, IsDeltaEvent e := by
      intro e he
      rcases List.mem_append.mp he with hm | hm
      · exact hacc e hm
      · exact hline e hm
    exact processFoldl_delta parse rest (processSseLine parse st l).1 _ hnext

theorem processSseChunk_delta (parse) (buffer : List Char) (st : UsageAcc) (chunk : List Char) :
    ∀ e ∈ (processSseChunk parse buffer st chunk).2.2, IsDeltaEvent e := by
  unfold processSseChunk
  exact processFoldl_delta parse _ st [] (by simp)

theorem runSseLoop_delta (parse) :
    ∀ (chunks : List (List Char)) (buffer : List Char) (st : UsageAcc),
      ∀ e ∈ (runSseLoop parse buffer st chunks).2, IsDeltaEvent e
  | [], _, _ => by simp [runSseLoop]
  | chunk :: rest, buffer, st => by
    intro e he
    unfold runSseLoop at he
    rcases List.mem_append.mp he with hm | hm
    · exact processSseChunk_delta parse buffer st chunk e hm
    · exact runSseLoop_delta parse rest _ _ e hm

theorem not_done_of_delta {e : StreamEvent} (h : IsDeltaEvent e) : e ≠ .done := by
  rcases h with ⟨d, rfl⟩ | ⟨d, rfl⟩ <;> simp

/-! ## Claim theorems -/

theorem decryptSecret_assembleEnvelope_empty_field (dec) (iv tag ct : List Nat)
    (hiv : ∀ b ∈ iv, b < 256) (htag : ∀ b ∈ tag, b < 256) (hct : ∀ b ∈ ct, b < 256)
    (h : iv = [] ∨ tag = [] ∨ ct = []) :
    decryptSecret dec (assembleEnvelope iv tag ct) = .error invalidEnvelopeMsg := by
  unfold decryptSecret
  rw [splitCh_assembleEnvelope iv tag ct hiv htag hct]
  simp only [List.getD_cons_succ, List.getD_cons_zero]
  rw [if_pos]
  rcases h with rfl | rfl | rfl
  · exact Or.inr (Or.inl ((encodeB64_eq_nil []).mpr rfl))
  · exact Or.inr (Or.inr (Or.inl ((encodeB64_eq_nil []).mpr rfl)))
  · exact Or.inr (Or.inr (Or.inr ((encodeB64_eq_nil []).mpr rfl)))

/-- C1 (amended): with the cipher modelled as an authenticated encryption
scheme — decryption succeeds exactly on authentic `(ciphertext, tag)` pairs
for the given key and nonce, ciphertexts determine plaintexts, ciphertext
length equals plaintext length and the tag is non-empty, all properties of
AES-256-GCM — `decryptSecret ∘ encryptSecret` is the identity on every
NON-EMPTY plaintext (the empty plaintext encrypts to an empty ciphertext
field, which `decryptSecret` rejects as malformed; see the counterexample),
an envelope whose tag field is altered fails closed, and an envelope whose
ciphertext and/or tag is altered to anything that is not itself an authentic
cipher output for the same key and nonce fails closed. -/
theorem encryptSecret_roundtrip_and_tamper_rejection
    (enc : List Nat → List Nat → List Nat × List Nat)
    (dec : List Nat → List Nat → List Nat → Except (List Char) (List Nat))
    (iv p : List Nat)
    (hdec : ∀ iv' tag' ct' q, dec iv' tag' ct' = .ok q ↔ enc iv' q = (ct', tag'))
    (hencinj : ∀ q q', (enc iv q).1 = (enc iv q').1 → q = q')
    (hivB : ∀ b ∈ iv, b < 256) (hivN : iv ≠ [])
    (hctB : ∀ b ∈ (enc iv p).1, b < 256)
    (htagB : ∀ b ∈ (enc iv p).2, b < 256)
    (htagN : (enc iv p).2 ≠ [])
    (hctlen : (enc iv p).1.length = p.length)
    (hp : p ≠ []) :
    decryptSecret dec (encryptSecret enc iv p) = .ok p
    ∧ (∀ tag', (∀ b ∈ tag', b < 256) → tag' ≠ (enc iv p).2 →
        ∀ q, decryptSecret dec (assembleEnvelope iv tag' (enc iv p).1) ≠ .ok q)
    ∧ (∀ tag' ct', (∀ b ∈ tag', b < 256) → (∀ b ∈ ct', b < 256) →
        (∀ q, enc iv q ≠ (ct', tag')) →
        ∀ q, decryptSecret dec (assembleEnvelope iv tag' ct') ≠ .ok q) := by
  have hctN : (enc iv p).1 ≠ [] := by
    intro h
    apply hp
    have : (enc iv p).1.length = 0 := by rw [h]; rfl
    exact List.length_eq_zero.mp (by omega)
  refine ⟨?_, ?_, ?_⟩
  · unfold encryptSecret
    rw [decryptSecret_assembleEnvelope dec iv _ _ hivB htagB hctB hivN htagN hctN]
    exact (hdec iv (enc iv p).2 (enc iv p).1 p).mpr rfl
  · intro tag' htagB' htagne q hq
    by_cases ht : tag' = []
    · rw [decryptSecret_assembleEnvelope_empty_field dec iv tag' (enc iv p).1 hivB htagB' hctB
        (Or.inr (Or.inl ht))] at hq
      exact Except.noConfusion hq
    · rw [decryptSecret_assembleEnvelope dec iv tag' (enc iv p).1 hivB htagB' hctB hivN ht hctN]
        at hq
      have hq' := (hdec iv tag' (enc iv p).1 q).mp hq
      have hqp : q = p := hencinj q p (by rw [hq'])
      subst hqp
      exact htagne (congrArg Prod.snd hq').symm
  · intro tag' ct' htagB' hctB' hforge q hq
    by_cases ht : tag' = []
    · rw [decryptSecret_assembleEnvelope_empty_field dec iv tag' ct' hivB htagB' hctB'
        (Or.inr (Or.inl ht))] at hq
      exact Except.noConfusion hq
    · by_cases hc : ct' = []
      · rw [decryptSecret_assembleEnvelope_empty_field dec iv tag' ct' hivB htagB' hctB'
          (Or.inr (Or.inr hc))] at hq
        exact Except.noConfusion hq
      · rw [decryptSecret_assembleEnvelope dec iv tag' ct' hivB htagB' hctB' hivN ht hc] at hq
        exact hforge q ((hdec iv tag' ct' q).mp hq)

/-- C1 counterexample: the round-trip half of the claim fails at the empty
plaintext.  AES-256-GCM is length-preserving, so `encryptSecret("")` produces
an empty ciphertext buffer whose base64 field is `""`, and `decryptSecret`
rejects the resulting envelope through its `!ctB64` check instead of
returning `""`.  `encToy`/`decToy` instantiate the cipher parameters with the
relevant GCM properties (length preservation, authenticated tag check). -/
theorem encryptSecret_empty_plaintext_cex :
    decryptSecret decToy (encryptSecret encToy (List.replicate 12 0) [])
      = Except.error invalidEnvelopeMsg := by
  decide

/-- Witness for the amended C1 theorem at a concrete cipher and input. -/
theorem encryptSecret_roundtrip_witness :
    decryptSecret decToy (encryptSecret encToy (List.replicate 12 0) [1, 2, 3])
      = Except.ok [1, 2, 3] :=
  (encryptSecret_roundtrip_and_tamper_rejection encToy decToy (List.replicate 12 0) [1, 2, 3]
    decToy_spec
    (fun q q' h => by simpa [encToy] using h)
    (by decide) (by decide) (by decide) (by decide) (by decide) (by decide) (by decide)).1

/-- C5: every envelope produced by `encryptSecret` splits on `":"` into
exactly the four fields `["v1", base64 nonce, base64 tag, base64
ciphertext]`; and `decryptSecret` fails closed with the envelope-format error
on any input whose first field is not `"v1"` or whose second, third or fourth
field is empty or missing. -/
theorem envelope_format_and_rejection :
    (∀ (enc : List Nat → List Nat → List Nat × List Nat) (iv p : List Nat),
        (∀ b ∈ iv, b < 256) → (∀ b ∈ (enc iv p).2, b < 256) → (∀ b ∈ (enc iv p).1, b < 256) →
        splitCh ':' (encryptSecret enc iv p)
          = [vOne, encodeB64 iv, encodeB64 (enc iv p).2, encodeB64 (enc iv p).1])
    ∧ (∀ dec envelope,
        ((splitCh ':' envelope).getD 0 [] ≠ vOne ∨ (splitCh ':' envelope).getD 1 [] = []
          ∨ (splitCh ':' envelope).getD 2 [] = [] ∨ (splitCh ':' envelope).getD 3 [] = []) →
        decryptSecret dec envelope = .error invalidEnvelopeMsg) := by
  constructor
  · intro enc iv p hiv htag hct
    unfold encryptSecret
    exact splitCh_assembleEnvelope iv (enc iv p).2 (enc iv p).1 hiv htag hct
  · intro dec envelope h
    unfold decryptSecret
    dsimp only
    rw [if_pos h]

/-- Witness for C5 at a concrete cipher, nonce, plaintext and a concrete
rejected envelope. -/
theorem envelope_format_witness :
    splitCh ':' (encryptSecret encToy (List.replicate 12 0) [1])
      = [vOne, encodeB64 (List.replicate 12 0), encodeB64 (encToy (List.replicate 12 0) [1]).2,
         encodeB64 (encToy (List.replicate 12 0) [1]).1]
    ∧ decryptSecret decToy ("v2:a:b:c".toList) = .error invalidEnvelopeMsg :=
  ⟨envelope_format_and_rejection.1 encToy (List.replicate 12 0) [1]
      (by decide) (by decide) (by decide),
   envelope_format_and_rejection.2 decToy ("v2:a:b:c".toList) (by decide)⟩

theorem filterMap_getElem_range {α : Type} :
    ∀ (l : List α), (List.range l.length).filterMap (fun i => l[i]?) = l
  | [] => rfl
  | a :: t => by
    have ih := filterMap_getElem_range t
    simp only [List.length_cons, List.range_succ_eq_map, List.filterMap_cons,
      List.getElem?_cons_zero, List.filterMap_map, Function.comp, Function.comp_def,
      Nat.succ_eq_add_one, List.getElem?_cons_succ]
    rw [ih]

/-- C2 (amended): in the web compare route, for every target list of length
1..6, the handler returns one result per target in input order — the i-th
result carries the i-th target's provider and model, is always a
`{ok: true, result}` / `{ok: false, error}` value (each job catches its own
dispatch failure), and depends only on its own target's dispatch outcome.
In the Swift `LLMClient.compare`, for EVERY task-completion order the result
list still has the input list's length and is, as a multiset, exactly the
per-target outcomes — each result tags the provider and model of the target
that produced it together with that target's own outcome, so failures stay
isolated — but results arrive in completion order, so the i-th result need
not correspond to the i-th target (see the counterexample). -/
theorem compare_fanout_results :
    (∀ (targets : List CompareTargetW), 1 ≤ targets.length → targets.length ≤ 6 →
      ∀ (dispatch : CompareTargetW → Except (List Char) WChatResponse),
        (comparePOST dispatch targets).length = targets.length
        ∧ (∀ i : Nat,
            ((comparePOST dispatch targets)[i]?).map CompareResultW.provider
                = (targets[i]?).map CompareTargetW.provider
            ∧ ((comparePOST dispatch targets)[i]?).map CompareResultW.model
                = (targets[i]?).map CompareTargetW.model)
        ∧ (∀ (i : Nat) (t : CompareTargetW), targets[i]? = some t →
            (∀ r, dispatch t = .ok r →
              (comparePOST dispatch targets)[i]? = some ⟨t.provider, t.model, .ok r⟩)
            ∧ (∀ m, dispatch t = .error m →
              (comparePOST dispatch targets)[i]? = some ⟨t.provider, t.model, .err m⟩))
        ∧ (∀ (dispatch₂ : CompareTargetW → Except (List Char) WChatResponse) (j : Nat),
            (∀ (i : Nat) (t : CompareTargetW), i ≠ j → targets[i]? = some t →
              dispatch t = dispatch₂ t) →
            ∀ i : Nat, i ≠ j →
              (comparePOST dispatch targets)[i]? = (comparePOST dispatch₂ targets)[i]?))
    ∧ (∀ (dispatch : ProviderID → List Char → Except LLMKeyVaultError ChatResponseSw)
        (targets : List (ProviderID × List Char)) (schedule : List Nat),
        schedule.Perm (List.range targets.length) →
        (compareSw dispatch targets schedule).length = targets.length
        ∧ (compareSw dispatch targets schedule).Perm
            (targets.map fun t => (t.1, t.2, dispatch t.1 t.2))
        ∧ ∀ r ∈ compareSw dispatch targets schedule,
            ∃ t ∈ targets, r = (t.1, t.2, dispatch t.1 t.2)) := by
  constructor
  · intro targets _hmin _hmax dispatch
    refine ⟨by simp [comparePOST], ?_, ?_, ?_⟩
    · intro i
      cases h : targets[i]? with
      | none => simp [comparePOST, h]
      | some t =>
        constructor
        · simp only [comparePOST, List.getElem?_map, h, Option.map_some]
          cases hd : dispatch t <;> simp [hd]
        · simp only [comparePOST, List.getElem?_map, h, Option.map_some]
          cases hd : dispatch t <;> simp [hd]
    · intro i t h
      constructor
      · intro r hr
        simp [comparePOST, List.getElem?_map, h, hr]
      · intro m hm
        simp [comparePOST, List.getElem?_map, h, hm]
    · intro dispatch₂ j hag i hij
      cases h : targets[i]? with
      | none => simp [comparePOST, h]
      | some t =>
        have := hag i t hij h
        simp [comparePOST, List.getElem?_map, h, this]
  · intro dispatch targets schedule hperm
    have hbase : (schedule.filterMap fun i => targets[i]?).Perm targets := by
      have h1 := hperm.filterMap (fun i => targets[i]?)
      rw [filterMap_getElem_range] at h1
      exact h1
    have hmain : (compareSw dispatch targets schedule).Perm
        (targets.map fun t => (t.1, t.2, dispatch t.1 t.2)) := by
      unfold compareSw
      rw [← List.map_filterMap]
      exact hbase.map _
    refine ⟨?_, hmain, ?_⟩
    · rw [hmain.length_eq, List.length_map]
    · intro r hr
      have hm := hmain.mem_iff.mp hr
      obtain ⟨t, ht, heq⟩ := List.mem_map.mp hm
      exact ⟨t, ht, heq.symm⟩

/-- C2 counterexample: the Swift `LLMClient.compare` collects its TaskGroup
results in completion order.  Under the legal completion order `[1, 0]` (a
permutation of the task indices), the 0-th result of a two-target compare
carries the SECOND target's provider (`anthropic`), not the first target's
(`openai`), so "the i-th result carries the i-th target's provider and
model" fails on this cited implementation. -/
theorem compareSw_completion_order_cex :
    ([1, 0] : List Nat).Perm (List.range cTargetsSw.length)
    ∧ (cTargetsSw[0]?).map Prod.fst = some ProviderID.openai
    ∧ ((compareSw dispatchSwCex cTargetsSw [1, 0])[0]?).map (fun r => r.1)
        = some ProviderID.anthropic
    ∧ ProviderID.anthropic ≠ ProviderID.openai := by
  refine ⟨by decide, rfl, rfl, by decide⟩

/-- Witness for the amended C2 theorem: the web handler with two targets, the
second configured to fail, returns aligned tagged results; the Swift compare
under the swapped completion order still returns one result per target. -/
theorem compare_fanout_results_witness :
    (comparePOST dispatchW cTargets).length = cTargets.length
    ∧ (comparePOST dispatchW cTargets)[1]?
        = some ⟨WProvider.anthropic, "claude-sonnet-4".toList,
                .err ("Anthropic request failed (401)".toList)⟩
    ∧ (compareSw dispatchSwCex cTargetsSw [1, 0]).length = cTargetsSw.length :=
  ⟨(compare_fanout_results.1 cTargets (by decide) (by decide) dispatchW).1,
   ((compare_fanout_results.1 cTargets (by decide) (by decide) dispatchW).2.2.1 1
      ⟨WProvider.anthropic, "claude-sonnet-4".toList⟩ rfl).2
      ("Anthropic request failed (401)".toList) rfl,
   (compare_fanout_results.2 dispatchSwCex cTargetsSw [1, 0] (by decide)).1⟩

/-- C3 (amended): for every upstream byte stream consumed by the Responses
streaming translator — any sequence of delivered chunks, ending either
cleanly or with a mid-stream exception — the emitted internal event stream
contains exactly one terminal `done` marker and it is the last event; and
when a mid-stream exception occurs, a single `error{message}` event is
emitted, followed by the final accumulated `usage` event and then `done`
(the translator's catch block emits `error`, `usage`, `[DONE]` in that
order, so one `usage` event stands between `error` and `done`; see the
counterexample). -/
theorem translateResponsesStream_terminal_events
    (parse : List Char → Option ResponsesApiEvent)
    (chunks : List (List Char)) (ending : UpstreamEnd) :
    (∃ evs, translateResponsesStream parse chunks ending = evs ++ [StreamEvent.done]
        ∧ StreamEvent.done ∉ evs)
    ∧ (∀ msg, ending = .err msg →
        ∃ evs u, translateResponsesStream parse chunks ending
            = evs ++ [StreamEvent.error msg, StreamEvent.usage u, StreamEvent.done]
          ∧ ∀ e ∈ evs, IsDeltaEvent e) := by
  have hdelta := runSseLoop_delta parse chunks [] ⟨0, 0, 0⟩
  cases ending with
  | eof =>
    refine ⟨⟨(runSseLoop parse [] ⟨0, 0, 0⟩ chunks).2
        ++ [StreamEvent.usage (runSseLoop parse [] ⟨0, 0, 0⟩ chunks).1], ?_, ?_⟩, ?_⟩
    · simp [translateResponsesStream]
    · intro hmem
      rcases List.mem_append.mp hmem with hm | hm
      · exact not_done_of_delta (hdelta _ hm) rfl
      · simp at hm
    · intro msg h
      exact UpstreamEnd.noConfusion h
  | err msg' =>
    refine ⟨⟨(runSseLoop parse [] ⟨0, 0, 0⟩ chunks).2
        ++ [StreamEvent.error msg', StreamEvent.usage (runSseLoop parse [] ⟨0, 0, 0⟩ chunks).1],
        ?_, ?_⟩, ?_⟩
    · simp [translateResponsesStream]
    · intro hmem
      rcases List.mem_append.mp hmem with hm | hm
      · exact not_done_of_delta (hdelta _ hm) rfl
      · simp at hm
    · intro msg h
      injection h with h'
      subst h'
      exact ⟨(runSseLoop parse [] ⟨0, 0, 0⟩ chunks).2,
        (runSseLoop parse [] ⟨0, 0, 0⟩ chunks).1,
        by simp [translateResponsesStream], fun e he => hdelta e he⟩

/-- C3 counterexample: a concrete upstream stream that throws after one text
delta.  The translated stream is `[text, error, usage, done]`: the event
immediately after `error` is the `usage` event, not `done`, so the claim's
"`error` followed immediately by `done` with no other event between them" is
false on this code path (`llm.ts` emits `error`, then `usage`, then
`[DONE]` in its catch block). -/
theorem translateResponsesStream_error_usage_done_cex :
    translateResponsesStream parseCex ["data: E1\n".toList] (.err ("boom".toList))
      = [StreamEvent.text ("hi".toList), StreamEvent.error ("boom".toList),
         StreamEvent.usage ⟨0, 0, 0⟩, StreamEvent.done]
    ∧ StreamEvent.usage ⟨0, 0, 0⟩ ≠ StreamEvent.done := by
  constructor
  · decide
  · decide

/-- Witness for the amended C3 theorem on a concrete erroring stream. -/
theorem translateResponsesStream_terminal_events_witness :
    ∃ evs u, translateResponsesStream parseCex ["data: E1\n".toList] (.err ("boom".toList))
        = evs ++ [StreamEvent.error ("boom".toList), StreamEvent.usage u, StreamEvent.done]
      ∧ ∀ e ∈ evs, IsDeltaEvent e :=
  (translateResponsesStream_terminal_events parseCex ["data: E1\n".toList]
    (.err ("boom".toList))).2 ("boom".toList) rfl

/-- C4 (amended): in the Swift gateway (`LLMClient.send`) every secret-store
failure, whatever its cause, is surfaced as `missingAPIKey(provider:)` —
identical across causes and mentioning only the provider.  The web gateway
(`loadUserApiKey` in `lib/llm.ts`) surfaces `"API key not set for provider"`
only when no credential row exists; a malformed stored envelope instead
surfaces the `"Invalid secret envelope format"` message thrown by
`decryptSecret`, a different error shape that does reveal the decryption
failure (see the counterexample). -/
theorem vault_failure_error_shapes :
    (∀ (ε : Type)
        (adapters : ProviderID → Option (ChatRequestSw → List Char → Except LLMKeyVaultError ChatResponseSw))
        (loadSecret : SecretKeyRef → Except ε (List Char))
        (request : ChatRequestSw) (keyName : List Char)
        (a : ChatRequestSw → List Char → Except LLMKeyVaultError ChatResponseSw) (e : ε),
        adapters request.provider = some a →
        loadSecret ⟨request.provider, keyName⟩ = .error e →
        clientSend adapters loadSecret request keyName
          = .error (.missingAPIKey request.provider))
    ∧ (∀ dec, loadUserApiKey dec (.ok none) = .error apiKeyNotSetMsg)
    ∧ (∀ dec, loadUserApiKey dec (.ok (some ("garbage".toList))) = .error invalidEnvelopeMsg)
    ∧ invalidEnvelopeMsg ≠ apiKeyNotSetMsg := by
  refine ⟨?_, ?_, ?_, by decide⟩
  · intro ε adapters loadSecret request keyName a e hA hL
    unfold clientSend
    rw [hA, hL]
  · intro dec
    rfl
  · intro dec
    unfold loadUserApiKey decryptSecret
    dsimp only
    rw [if_pos (Or.inl (by decide))]

/-- C4 counterexample: two different vault-failure causes in the web gateway
— absent credential row versus malformed stored envelope — surface two
different error messages, and the second names the decryption failure, so
the surfaced error is not the uniform MissingCredential shape. -/
theorem vault_failure_error_shapes_cex :
    loadUserApiKey decToy (.ok (some ("garbage".toList))) = .error invalidEnvelopeMsg
    ∧ loadUserApiKey decToy (.ok none) = .error apiKeyNotSetMsg
    ∧ invalidEnvelopeMsg ≠ apiKeyNotSetMsg := by
  refine ⟨by decide, rfl, by decide⟩

/-- Witness for the amended C4 theorem: a concrete registered adapter and a
concrete failing secret store yield exactly `missingAPIKey(.openai)`. -/
theorem vault_failure_error_shapes_witness :
    clientSend adaptersW loadSecretFailW reqW ("default".toList)
      = .error (.missingAPIKey ProviderID.openai) :=
  vault_failure_error_shapes.1 (List Char) adaptersW loadSecretFailW reqW ("default".toList)
    (fun _ _ => .ok ⟨"ok".toList, none⟩) ("keychain".toList) rfl rfl

/-- C6 (amended): for every message list and every `keepLastN ≥ 1`, the
compression split returns `toKeep` equal to exactly the
`min(keepLastN, totalMessages)` most-recent messages unmodified (the final
`drop` of the original list), and rebuilding after summarization yields
`[summary-as-system-message, ...toKeep]`, so a 4000-message history
compressed with `keepLastN = 3` yields a rebuilt list of length 4.  (At
`keepLastN = 0` the JS `slice(-0)` keeps the whole list instead of 0
messages; see the counterexample.) -/
theorem splitForSummarization_keeps_recent
    (messages : List MessageForContext) (keepLastN : Nat) (summary : List Char)
    (hn : 1 ≤ keepLastN) :
    (splitForSummarization messages keepLastN).2
        = messages.drop (messages.length - keepLastN)
    ∧ (splitForSummarization messages keepLastN).2.length = min keepLastN messages.length
    ∧ buildMessagesWithSummary summary (splitForSummarization messages keepLastN).2
        = ⟨Role.system, summaryMessageContent summary, []⟩
            :: (splitForSummarization messages keepLastN).2
    ∧ (messages.length = 4000 → keepLastN = 3 →
        (buildMessagesWithSummary summary (splitForSummarization messages keepLastN).2).length
          = 4) := by
  have h2 : (splitForSummarization messages keepLastN).2
      = messages.drop (messages.length - keepLastN) := by
    unfold splitForSummarization jsSliceFromNeg
    by_cases h : messages.length ≤ keepLastN
    · rw [if_pos h]
      rw [Nat.sub_eq_zero_of_le h, List.drop_zero]
    · rw [if_neg h, if_neg (by omega)]
  have hlen : (splitForSummarization messages keepLastN).2.length
      = min keepLastN messages.length := by
    rw [h2, List.length_drop]
    omega
  refine ⟨h2, hlen, rfl, ?_⟩
  intro h4000 h3
  unfold buildMessagesWithSummary
  rw [List.length_cons, hlen, h4000, h3]
  decide

/-- C6 counterexample: at `keepLastN = 0` with one message, the code keeps
the whole list (`slice(-0)` is `slice(0)` in JS), not `min(0, 1) = 0`
most-recent messages. -/
theorem splitForSummarization_keepLastN_zero_cex :
    (splitForSummarization [mA] 0).2 = [mA]
    ∧ min 0 ([mA] : List MessageForContext).length = 0
    ∧ ([mA] : List MessageForContext).length ≠ 0 := by
  refine ⟨rfl, rfl, by decide⟩

/-- Witness for the amended C6 theorem on a concrete 4000-message history
with `keepLastN = 3`. -/
theorem splitForSummarization_keeps_recent_witness :
    (buildMessagesWithSummary ("s".toList)
        (splitForSummarization (List.replicate 4000 mA) 3).2).length = 4 :=
  (splitForSummarization_keeps_recent (List.replicate 4000 mA) 3 ("s".toList)
    (by decide)).2.2.2 (List.length_replicate 4000 mA) rfl

/-- C8: if, during a dispatch whose context needed compression, the
credential load or the caller-supplied summarization step fails, the chat
route proceeds with the original uncompressed message list (the failure is
absorbed by the surrounding `catch {}` and never surfaces to the caller). -/
theorem summarization_failure_fallback
    (messages : List MessageForContext) (model : List Char)
    (summarize : List Char → List MessageForContext → Except (List Char) (List Char))
    (hneed : needsSummarization messages model = true) :
    (∀ e, chatMessagesAfterCompression messages model (.error e) summarize = messages)
    ∧ (∀ apiKey e, summarize apiKey (splitForSummarization messages 3).1 = .error e →
        chatMessagesAfterCompression messages model (.ok apiKey) summarize = messages) := by
  constructor
  · intro e
    unfold chatMessagesAfterCompression
    rw [if_pos (by rw [hneed])]
  · intro apiKey e he
    unfold chatMessagesAfterCompression
    rw [if_pos (by rw [hneed])]
    dsimp only
    by_cases hl : 0 < (splitForSummarization messages 3).1.length
    · rw [if_pos hl, he]
    · rw [if_neg hl]

/-- Witness for C8: a four-message history at exactly the summarization
threshold, with a summarizer that fails; the dispatch list is unchanged. -/
theorem summarization_failure_fallback_witness :
    chatMessagesAfterCompression wMsgs ("gpt-5.2-2025-12-11".toList)
      (.ok ("k".toList)) summarizeFailW = wMsgs :=
  (summarization_failure_fallback wMsgs ("gpt-5.2-2025-12-11".toList) summarizeFailW
    (by set_option maxRecDepth 8000 in decide)).2
    ("k".toList) ("Summarization failed".toList) rfl

/-- C9 (amended): the hint is always the marker `"****"` followed by at most
the last 4 characters of the trimmed plaintext (a suffix of it), so it never
equals the full trimmed plaintext unless that plaintext itself starts with
`"****"` (see the counterexample for such a plaintext); and saving
`"sk-ABCDEFGHIJ"` produces exactly the hint `"****GHIJ"`. -/
theorem keyHint_masking (apiKey : List Char) :
    keyHint apiKey = maskMarker ++ (keyHint apiKey).drop 4
    ∧ ((keyHint apiKey).drop 4).length ≤ 4
    ∧ (∃ pre, pre ++ (keyHint apiKey).drop 4 = jsTrim apiKey)
    ∧ ((jsTrim apiKey).take 4 ≠ maskMarker → keyHint apiKey ≠ jsTrim apiKey)
    ∧ keyHint ("sk-ABCDEFGHIJ".toList) = "****GHIJ".toList := by
  unfold keyHint
  dsimp only
  by_cases h : (jsTrim apiKey).length ≤ 4
  · rw [if_pos h]
    refine ⟨rfl, by decide,
      ⟨jsTrim apiKey, by rw [show maskMarker.drop 4 = ([] : List Char) from rfl, List.append_nil]⟩,
      ?_, by decide⟩
    intro hne heq
    exact hne (by rw [← heq]; rfl)
  · rw [if_neg h]
    have hd : (maskMarker ++ (jsTrim apiKey).drop ((jsTrim apiKey).length - 4)).drop 4
        = (jsTrim apiKey).drop ((jsTrim apiKey).length - 4) := by
      rw [show (4 : Nat) = maskMarker.length from rfl]
      exact List.drop_left maskMarker _
    refine ⟨by rw [hd], ?_, ?_, ?_, by decide⟩
    · rw [hd, List.length_drop]
      omega
    · exact ⟨(jsTrim apiKey).take ((jsTrim apiKey).length - 4),
        by rw [hd, List.take_append_drop]⟩
    · intro hne heq
      apply hne
      rw [← heq, show (4 : Nat) = maskMarker.length from rfl]
      exact List.take_left maskMarker _

/-- C9 counterexample: the submitted key `"****" + six spaces` passes the
route's length-10 validation, trims to the stored plaintext `"****"`, and
its hint is `"****"` — the hint equals the full stored plaintext. -/
theorem keyHint_full_value_cex :
    10 ≤ ("****      ".toList).length
    ∧ upsertStoredPlaintext ("****      ".toList) = "****".toList
    ∧ upsertHint ("****      ".toList) = upsertStoredPlaintext ("****      ".toList) := by
  refine ⟨by decide, by decide, by decide⟩

/-- Witness for the amended C9 theorem at the spec's Scenario A input. -/
theorem keyHint_masking_witness :
    keyHint ("sk-ABCDEFGHIJ".toList) ≠ jsTrim ("sk-ABCDEFGHIJ".toList) :=
  (keyHint_masking ("sk-ABCDEFGHIJ".toList)).2.2.2.1 (by decide)

/-- C10: for every message list and every `keepLastN`, the compression split
is a partition — `toSummarize ++ toKeep` is exactly the original list, so no
message is dropped, duplicated, modified or reordered. -/
theorem splitForSummarization_partition
    (messages : List MessageForContext) (keepLastN : Nat) :
    (splitForSummarization messages keepLastN).1
        ++ (splitForSummarization messages keepLastN).2 = messages := by
  unfold splitForSummarization jsSliceToNegEnd jsSliceFromNeg
  by_cases h : messages.length ≤ keepLastN
  · simp [h]
  · by_cases h0 : keepLastN = 0
    · simp [h, h0]
    · simp [h, h0, List.take_append_drop]

end LLMKV
